import Mathlib

/-!
Shallow embedding of the orbital-mechanics kernel of the repository
(`src/exoII/src/components/SolarSystem.tsx`): the pure function
`calculateOrbitalPosition`, the `Trail` segment generator, the `OrbitRing`
sampler and the `useTimeSystem` clock, together with proofs of the spec's
claims about them.  JS numbers are modelled as real numbers; where
production of NaN/Infinity matters, an `Option ℝ` carrier tracks
non-finiteness (division by zero, square roots of negatives).
-/

namespace SolarSystem

/-- JS `Math.atan2 y x` on real inputs: the angle of the point `(x, y)` in
`(-π, π]`, modelled as the complex argument of `x + y·i`. -/
noncomputable def atan2 (y x : ℝ) : ℝ := Complex.arg (x + y * Complex.I)

/-- Mean anomaly, line `const meanAnomaly = (time / orbitalPeriod) * Math.PI * 2`. -/
noncomputable def meanAnomaly (time orbitalPeriod : ℝ) : ℝ :=
  time / orbitalPeriod * Real.pi * 2

/-- Eccentric anomaly: the source's 5-iteration fixed-point loop
`for (let i = 0; i < 5; i++) eccentricAnomaly = meanAnomaly + eccentricity * Math.sin(eccentricAnomaly)`
seeded with `eccentricAnomaly = meanAnomaly`. -/
noncomputable def eccentricAnomalyIter (M e : ℝ) : ℝ :=
  (fun E => M + e * Real.sin E)^[5] M

/-- True anomaly, line
`const trueAnomaly = 2 * Math.atan2(Math.sqrt(1 + e) * Math.sin(E / 2), Math.sqrt(1 - e) * Math.cos(E / 2))`. -/
noncomputable def trueAnomaly (E e : ℝ) : ℝ :=
  2 * atan2 (Real.sqrt (1 + e) * Real.sin (E / 2)) (Real.sqrt (1 - e) * Real.cos (E / 2))

/-- Distance from focus, line
`const distance = semiMajorAxis * (1 - eccentricity * eccentricity) / (1 + eccentricity * Math.cos(trueAnomaly))`. -/
noncomputable def orbitalDistance (semiMajorAxis eccentricity ν : ℝ) : ℝ :=
  semiMajorAxis * (1 - eccentricity * eccentricity) / (1 + eccentricity * Real.cos ν)

/-- Final coordinate assembly of `calculateOrbitalPosition`, written on the
pre-computed cosines/sines of the three (already radian-converted)
orientation angles, exactly as the source computes `x`, `y`, `z`. -/
def rotateToSpace (cos_omega sin_omega cos_i sin_i cos_Omega sin_Omega
    x_orbital y_orbital : ℝ) : ℝ × ℝ × ℝ :=
  ((cos_omega * cos_Omega - sin_omega * sin_Omega * cos_i) * x_orbital +
     (-sin_omega * cos_Omega - cos_omega * sin_Omega * cos_i) * y_orbital,
   (cos_omega * sin_Omega + sin_omega * cos_Omega * cos_i) * x_orbital +
     (-sin_omega * sin_Omega + cos_omega * cos_Omega * cos_i) * y_orbital,
   (sin_omega * sin_i) * x_orbital + (cos_omega * sin_i) * y_orbital)

/-- Conversion of the source's `cos_omega := Math.cos(argumentOfPeriapsis * Math.PI / 180)`
block followed by the coordinate assembly. -/
noncomputable def orientationTransform (inclination longitudeOfAscendingNode
    argumentOfPeriapsis x_orbital y_orbital : ℝ) : ℝ × ℝ × ℝ :=
  rotateToSpace
    (Real.cos (argumentOfPeriapsis * Real.pi / 180))
    (Real.sin (argumentOfPeriapsis * Real.pi / 180))
    (Real.cos (inclination * Real.pi / 180))
    (Real.sin (inclination * Real.pi / 180))
    (Real.cos (longitudeOfAscendingNode * Real.pi / 180))
    (Real.sin (longitudeOfAscendingNode * Real.pi / 180))
    x_orbital y_orbital

/-- In-plane coordinates `x_orbital = distance * cos ν`, `y_orbital = distance * sin ν`
followed by the 3D orientation transform. -/
noncomputable def positionFromTrueAnomaly (semiMajorAxis eccentricity inclination
    longitudeOfAscendingNode argumentOfPeriapsis ν : ℝ) : ℝ × ℝ × ℝ :=
  orientationTransform inclination longitudeOfAscendingNode argumentOfPeriapsis
    (orbitalDistance semiMajorAxis eccentricity ν * Real.cos ν)
    (orbitalDistance semiMajorAxis eccentricity ν * Real.sin ν)

/-- True anomaly reached at a given time: composition of the mean-anomaly,
Kepler-iteration and true-anomaly steps of `calculateOrbitalPosition`. -/
noncomputable def trueAnomalyAt (time eccentricity orbitalPeriod : ℝ) : ℝ :=
  trueAnomaly (eccentricAnomalyIter (meanAnomaly time orbitalPeriod) eccentricity) eccentricity

/-- The source's `calculateOrbitalPosition(time, semiMajorAxis, eccentricity,
orbitalPeriod, inclination, longitudeOfAscendingNode, argumentOfPeriapsis)`,
returning the `(x, y, z)` triple it builds. -/
noncomputable def calculateOrbitalPosition (time semiMajorAxis eccentricity orbitalPeriod
    inclination longitudeOfAscendingNode argumentOfPeriapsis : ℝ) : ℝ × ℝ × ℝ :=
  positionFromTrueAnomaly semiMajorAxis eccentricity inclination longitudeOfAscendingNode
    argumentOfPeriapsis (trueAnomalyAt time eccentricity orbitalPeriod)

/-! Reference algorithm of the spec (section 4.1), used by claim C2: the same
anomaly pipeline but with the final rotation given as the composition
`R_z(Ω) · R_x(i) · R_z(ω)` applied to `(x_o, y_o, 0)`, angles converted from
degrees to radians. -/

/-- Degrees-to-radians conversion required by the spec. -/
noncomputable def degToRad (d : ℝ) : ℝ := d * Real.pi / 180

/-- Rotation of a 3-vector about the z-axis, as in the spec's reference
composition. -/
noncomputable def rotZ (θ : ℝ) (v : ℝ × ℝ × ℝ) : ℝ × ℝ × ℝ :=
  (Real.cos θ * v.1 - Real.sin θ * v.2.1,
   Real.sin θ * v.1 + Real.cos θ * v.2.1,
   v.2.2)

/-- Rotation of a 3-vector about the x-axis, as in the spec's reference
composition. -/
noncomputable def rotX (θ : ℝ) (v : ℝ × ℝ × ℝ) : ℝ × ℝ × ℝ :=
  (v.1,
   Real.cos θ * v.2.1 - Real.sin θ * v.2.2,
   Real.sin θ * v.2.1 + Real.cos θ * v.2.2)

/-- Spec formulation of the mean anomaly, `M = (time / orbitalPeriod) * 2π`. -/
noncomputable def specMeanAnomaly (time orbitalPeriod : ℝ) : ℝ :=
  time / orbitalPeriod * (2 * Real.pi)

/-- Spec formulation of the eccentric anomaly: 5th iterate of
`x ↦ M + e·sin x` from `x = M`. -/
noncomputable def specEccentricAnomaly (M e : ℝ) : ℝ :=
  (fun x => M + e * Real.sin x)^[5] M

/-- Spec formulation of the true anomaly,
`ν = 2·atan2(√(1+e)·sin(E/2), √(1-e)·cos(E/2))`. -/
noncomputable def specTrueAnomaly (E e : ℝ) : ℝ :=
  2 * atan2 (Real.sqrt (1 + e) * Real.sin (E / 2)) (Real.sqrt (1 - e) * Real.cos (E / 2))

/-- Spec formulation of the radius, `r = a(1-e²)/(1+e·cos ν)`. -/
noncomputable def specRadius (a e ν : ℝ) : ℝ :=
  a * (1 - e ^ 2) / (1 + e * Real.cos ν)

/-- The spec's reference algorithm: `R_z(Ω)·R_x(i)·R_z(ω)` applied to
`(r·cos ν, r·sin ν, 0)`, with all angles converted from degrees to radians. -/
noncomputable def specReferencePosition (time a e P inc node peri : ℝ) : ℝ × ℝ × ℝ :=
  rotZ (degToRad node) (rotX (degToRad inc) (rotZ (degToRad peri)
    (specRadius a e (specTrueAnomaly (specEccentricAnomaly (specMeanAnomaly time P) e) e) *
       Real.cos (specTrueAnomaly (specEccentricAnomaly (specMeanAnomaly time P) e) e),
     specRadius a e (specTrueAnomaly (specEccentricAnomaly (specMeanAnomaly time P) e) e) *
       Real.sin (specTrueAnomaly (specEccentricAnomaly (specMeanAnomaly time P) e) e),
     0)))

/-! Euclidean norm of positions: the final orientation transform is a
composition of rotations, hence preserves the in-plane squared length. -/

/-- Squared Euclidean norm of a 3-vector. -/
def normSq3 (v : ℝ × ℝ × ℝ) : ℝ := v.1 ^ 2 + v.2.1 ^ 2 + v.2.2 ^ 2

/-- Euclidean norm of a 3-vector. -/
noncomputable def norm3 (v : ℝ × ℝ × ℝ) : ℝ := Real.sqrt (normSq3 v)

/-! OrbitRing: the source samples `calculateOrbitalPosition` at 65 points
`i = 0..64`, with `angle = (i / 64) * π * 2`, time argument
`angle / (π * 2) * 10` and dummy period `10`; the `useMemo` depends only on
the planet's orbital elements, never on the simulation clock or speed. -/

/-- Polyline points of the source's `OrbitRing` component. -/
noncomputable def ringPoints (a e inc node peri : ℝ) : List (ℝ × ℝ × ℝ) :=
  (List.range 65).map (fun i : ℕ =>
    calculateOrbitalPosition ((i : ℝ) / 64 * Real.pi * 2 / (Real.pi * 2) * 10)
      a e 10 inc node peri)

/-! The simulation clock of `useTimeSystem`: per-frame callback
`if (!config.time.paused) setTime(prev => prev + delta * config.time.speed)`,
plus the exposed `setTime`, whose only spec-sanctioned control use is an
explicit reset of the time state to 0. -/

/-- Operations applied to the clock state: a frame tick (frame delta,
configured speed multiplier, paused flag) or a reset to 0 through the
exposed setter. -/
inductive TimeOp where
  | tick (delta speed : ℝ) (paused : Bool)
  | reset

/-- Single-step semantics of the clock: the `useFrame` body for a tick, and
`setTime(0)` for a reset. -/
noncomputable def timeStep : TimeOp → ℝ → ℝ
  | TimeOp.tick delta speed paused, t => if paused then t else t + delta * speed
  | TimeOp.reset, _ => 0

/-- Clock state after running a sequence of operations from `t0`. -/
noncomputable def runOps (ops : List TimeOp) (t0 : ℝ) : ℝ :=
  ops.foldl (fun t op => timeStep op t) t0

/-- Reachable tick parameters: frame deltas are nonnegative and the speed
slider is constrained to positive values. -/
def validTimeOp : TimeOp → Prop
  | TimeOp.tick delta speed _ => 0 ≤ delta ∧ 0 < speed
  | TimeOp.reset => True

/-! Trail generator: for `i = 0..59` the source computes
`trailTime = time - (i * angleStep * orbitalPeriod / (Math.PI * 2))` with
`angleStep = ((60 * Math.PI) / 180) / 60`, skips negative `trailTime`
(`continue`), evaluates the position there, tags it with
`opacity = Math.max(0, 1 - i / numSegments)`, and finally reverses the
collected list so the oldest segment comes first. -/

/-- Candidate sample time of trail segment index `i`. -/
noncomputable def trailTimeAt (time orbitalPeriod : ℝ) (i : ℕ) : ℝ :=
  time - ((i : ℝ) * ((60 * Real.pi / 180) / 60) * orbitalPeriod / (Real.pi * 2))

/-- Opacity of trail segment index `i`, `Math.max(0, 1 - i / numSegments)`. -/
noncomputable def trailOpacity (i : ℕ) : ℝ := max 0 (1 - (i : ℝ) / 60)

/-- Trail segments in generation order (newest first, before the final
`reverse`). -/
noncomputable def trailSegmentsRaw (time a e P inc node peri : ℝ) :
    List ((ℝ × ℝ × ℝ) × ℝ) :=
  (List.range 60).filterMap (fun i : ℕ =>
    if trailTimeAt time P i < 0 then none
    else some (calculateOrbitalPosition (trailTimeAt time P i) a e P inc node peri,
      trailOpacity i))

/-- Trail segments as returned by the source (`segments.reverse()`, oldest
first). -/
noncomputable def trailSegments (time a e P inc node peri : ℝ) :
    List ((ℝ × ℝ × ℝ) × ℝ) :=
  (trailSegmentsRaw time a e P inc node peri).reverse

/-- Render guard of the `Trail` component: it returns `null` unless trails
are enabled and at least two segments exist. -/
def trailRendered (showTrails : Bool) (segments : List ((ℝ × ℝ × ℝ) × ℝ)) : Prop :=
  showTrails = true ∧ 2 ≤ segments.length

/-! Non-finiteness-tracking embedding for claim C1.  `some x` is the finite
JS number `x`; `none` marks a non-finite double (NaN or ±Infinity), produced
by division by zero or the square root of a negative and propagated by every
arithmetic and trigonometric operation the function performs. -/

/-- Carrier for JS numbers where NaN/Infinity production matters. -/
abbrev JSVal := Option ℝ

/-- JS addition on the non-finiteness-tracking carrier. -/
noncomputable def jsAdd : JSVal → JSVal → JSVal
  | some x, some y => some (x + y)
  | _, _ => none

/-- JS subtraction on the non-finiteness-tracking carrier. -/
noncomputable def jsSub : JSVal → JSVal → JSVal
  | some x, some y => some (x - y)
  | _, _ => none

/-- JS multiplication on the non-finiteness-tracking carrier (`0 * Infinity`
and `x * NaN` are NaN, `x * Infinity` is infinite: a non-finite factor always
yields a non-finite product). -/
noncomputable def jsMul : JSVal → JSVal → JSVal
  | some x, some y => some (x * y)
  | _, _ => none

/-- JS division: a zero divisor yields ±Infinity or NaN (non-finite). -/
noncomputable def jsDiv : JSVal → JSVal → JSVal
  | some x, some y => if y = 0 then none else some (x / y)
  | _, _ => none

/-- JS negation. -/
noncomputable def jsNeg : JSVal → JSVal
  | some x => some (-x)
  | none => none

/-- JS `Math.sin` (NaN on non-finite input). -/
noncomputable def jsSin : JSVal → JSVal
  | some x => some (Real.sin x)
  | none => none

/-- JS `Math.cos` (NaN on non-finite input). -/
noncomputable def jsCos : JSVal → JSVal
  | some x => some (Real.cos x)
  | none => none

/-- JS `Math.sqrt` (NaN on negative or non-finite input). -/
noncomputable def jsSqrt : JSVal → JSVal
  | some x => if x < 0 then none else some (Real.sqrt x)
  | none => none

/-- JS `Math.atan2` (finite and total on finite inputs, NaN otherwise). -/
noncomputable def jsAtan2 : JSVal → JSVal → JSVal
  | some y, some x => some (atan2 y x)
  | _, _ => none

/-- Mean-anomaly line over the JS carrier. -/
noncomputable def meanAnomalyJS (time orbitalPeriod : ℝ) : JSVal :=
  jsMul (jsMul (jsDiv (some time) (some orbitalPeriod)) (some Real.pi)) (some 2)

/-- Kepler fixed-point loop over the JS carrier. -/
noncomputable def eccentricAnomalyIterJS (M : JSVal) (e : ℝ) : JSVal :=
  (fun x => jsAdd M (jsMul (some e) (jsSin x)))^[5] M

/-- True-anomaly line over the JS carrier. -/
noncomputable def trueAnomalyJS (E : JSVal) (e : ℝ) : JSVal :=
  jsMul (some 2) (jsAtan2
    (jsMul (jsSqrt (jsAdd (some 1) (some e))) (jsSin (jsDiv E (some 2))))
    (jsMul (jsSqrt (jsSub (some 1) (some e))) (jsCos (jsDiv E (some 2)))))

/-- Distance line over the JS carrier. -/
noncomputable def orbitalDistanceJS (semiMajorAxis eccentricity : ℝ) (ν : JSVal) : JSVal :=
  jsDiv (jsMul (some semiMajorAxis)
      (jsSub (some 1) (jsMul (some eccentricity) (some eccentricity))))
    (jsAdd (some 1) (jsMul (some eccentricity) (jsCos ν)))

/-- Degree-to-radian conversion (`d * Math.PI / 180`) over the JS carrier. -/
noncomputable def degToRadJS (d : ℝ) : JSVal :=
  jsDiv (jsMul (some d) (some Real.pi)) (some 180)

/-- The whole of `calculateOrbitalPosition` transcribed operation-by-operation
over the non-finiteness-tracking carrier.  The parameters are finite JS
numbers supplied by the configuration layer. -/
noncomputable def calculateOrbitalPositionJS (time semiMajorAxis eccentricity orbitalPeriod
    inclination longitudeOfAscendingNode argumentOfPeriapsis : ℝ) :
    JSVal × JSVal × JSVal :=
  let ν := trueAnomalyJS
    (eccentricAnomalyIterJS (meanAnomalyJS time orbitalPeriod) eccentricity) eccentricity
  let distance := orbitalDistanceJS semiMajorAxis eccentricity ν
  let x_orbital := jsMul distance (jsCos ν)
  let y_orbital := jsMul distance (jsSin ν)
  let cos_omega := jsCos (degToRadJS argumentOfPeriapsis)
  let sin_omega := jsSin (degToRadJS argumentOfPeriapsis)
  let cos_i := jsCos (degToRadJS inclination)
  let sin_i := jsSin (degToRadJS inclination)
  let cos_Omega := jsCos (degToRadJS longitudeOfAscendingNode)
  let sin_Omega := jsSin (degToRadJS longitudeOfAscendingNode)
  (jsAdd
    (jsMul (jsSub (jsMul cos_omega cos_Omega) (jsMul (jsMul sin_omega sin_Omega) cos_i))
      x_orbital)
    (jsMul (jsSub (jsMul (jsNeg sin_omega) cos_Omega) (jsMul (jsMul cos_omega sin_Omega) cos_i))
      y_orbital),
   jsAdd
    (jsMul (jsAdd (jsMul cos_omega sin_Omega) (jsMul (jsMul sin_omega cos_Omega) cos_i))
      x_orbital)
    (jsMul (jsAdd (jsMul (jsNeg sin_omega) sin_Omega) (jsMul (jsMul cos_omega cos_Omega) cos_i))
      y_orbital),
   jsAdd (jsMul (jsMul sin_omega sin_i) x_orbital) (jsMul (jsMul cos_omega sin_i) y_orbital))


/-- The source's expanded coordinate assembly is exactly the composition
`R_z(Ω) · R_x(i) · R_z(ω)` applied to the in-plane vector. -/
lemma rotation_composition_eq (inc node peri x_o y_o : ℝ) :
    rotZ (degToRad node) (rotX (degToRad inc) (rotZ (degToRad peri) (x_o, y_o, 0))) =
      orientationTransform inc node peri x_o y_o := by
  simp only [rotZ, rotX, orientationTransform, rotateToSpace, degToRad, Prod.mk.injEq]
  refine ⟨by ring, by ring, by ring⟩

lemma specMeanAnomaly_eq (time P : ℝ) : specMeanAnomaly time P = meanAnomaly time P := by
  unfold specMeanAnomaly meanAnomaly; ring

lemma specRadius_eq (a e ν : ℝ) : specRadius a e ν = orbitalDistance a e ν := by
  unfold specRadius orbitalDistance; ring_nf

lemma spec_position_eq (time a e P inc node peri : ℝ) :
    calculateOrbitalPosition time a e P inc node peri =
      specReferencePosition time a e P inc node peri := by
  unfold specReferencePosition
  rw [specMeanAnomaly_eq]
  rw [show specEccentricAnomaly = eccentricAnomalyIter from rfl]
  rw [show specTrueAnomaly = trueAnomaly from rfl]
  rw [specRadius_eq, rotation_composition_eq]
  rfl

/-- C2: for every time, semi-major axis `a > 0`, eccentricity `e ∈ [0,1)`,
period `P > 0` and orientation angles in degrees, `calculateOrbitalPosition`
coincides with the spec's reference algorithm (unreduced mean anomaly, 5-step
Kepler iteration from `M`, half-angle true anomaly, conic radius, and the
rotation composition `R_z(Ω)·R_x(i)·R_z(ω)` on `(r·cos ν, r·sin ν, 0)` with
degree-to-radian conversion). -/
theorem C2_position_matches_spec_reference (time a e P inc node peri : ℝ)
    (ha : 0 < a) (he0 : 0 ≤ e) (he1 : e < 1) (hP : 0 < P) :
    calculateOrbitalPosition time a e P inc node peri =
      specReferencePosition time a e P inc node peri :=
  spec_position_eq time a e P inc node peri

/-- C2 witness: the equality at the concrete in-range input
`t = 3, a = 2, e = 1/2, P = 4, i = 30, Ω = 40, ω = 50`. -/
theorem C2_position_matches_spec_reference_witness :
    (0:ℝ) < 2 ∧ (0:ℝ) ≤ 1/2 ∧ (1:ℝ)/2 < 1 ∧ (0:ℝ) < 4 ∧
      calculateOrbitalPosition 3 2 (1/2) 4 30 40 50 =
        specReferencePosition 3 2 (1/2) 4 30 40 50 :=
  ⟨by norm_num, by norm_num, by norm_num, by norm_num,
    C2_position_matches_spec_reference 3 2 (1/2) 4 30 40 50
      (by norm_num) (by norm_num) (by norm_num) (by norm_num)⟩

/-! Double-angle evaluation of `atan2`: `cos (2·atan2 y x)` and
`sin (2·atan2 y x)` are rational in `(x, y)` away from the origin.  This is
the workhorse behind periodicity and monotonicity of the true anomaly. -/

lemma cos_two_atan2 (y x : ℝ) (h : x ^ 2 + y ^ 2 ≠ 0) :
    Real.cos (2 * atan2 y x) = (x ^ 2 - y ^ 2) / (x ^ 2 + y ^ 2) := by
  have hz : (x : ℂ) + y * Complex.I ≠ 0 := fun h0 => h (by
    rw [← Complex.normSq_add_mul_I x y, h0, map_zero])
  have habs : (Complex.abs ((x : ℂ) + y * Complex.I)) ^ 2 = x ^ 2 + y ^ 2 := by
    rw [Complex.sq_abs, Complex.normSq_add_mul_I]
  have hre : ((x : ℂ) + y * Complex.I).re = x := by simp
  unfold atan2
  rw [Real.cos_two_mul, Complex.cos_arg hz, hre, div_pow, habs]
  field_simp
  ring

lemma sin_two_atan2 (y x : ℝ) (h : x ^ 2 + y ^ 2 ≠ 0) :
    Real.sin (2 * atan2 y x) = 2 * x * y / (x ^ 2 + y ^ 2) := by
  have hz : (x : ℂ) + y * Complex.I ≠ 0 := fun h0 => h (by
    rw [← Complex.normSq_add_mul_I x y, h0, map_zero])
  have habs : (Complex.abs ((x : ℂ) + y * Complex.I)) ^ 2 = x ^ 2 + y ^ 2 := by
    rw [Complex.sq_abs, Complex.normSq_add_mul_I]
  have hA : Complex.abs ((x : ℂ) + y * Complex.I) ≠ 0 := Complex.abs.ne_zero hz
  have hre : ((x : ℂ) + y * Complex.I).re = x := by simp
  have him : ((x : ℂ) + y * Complex.I).im = y := by simp
  unfold atan2
  rw [Real.sin_two_mul, Complex.sin_arg, Complex.cos_arg hz, hre, him, ← habs]
  field_simp
  ring

/-- Squared length of the vector fed to `atan2` inside `trueAnomaly`. -/
lemma anomaly_vec_normSq (E e : ℝ) (he0 : 0 ≤ e) (he1 : e ≤ 1) :
    (Real.sqrt (1 - e) * Real.cos (E / 2)) ^ 2 +
      (Real.sqrt (1 + e) * Real.sin (E / 2)) ^ 2 = 1 - e * Real.cos E := by
  have h1 : Real.sqrt (1 - e) ^ 2 = 1 - e := Real.sq_sqrt (by linarith)
  have h2 : Real.sqrt (1 + e) ^ 2 = 1 + e := Real.sq_sqrt (by linarith)
  have hcos : Real.cos E = 2 * Real.cos (E / 2) ^ 2 - 1 := by
    rw [← Real.cos_two_mul]; congr 1; ring
  have hpy : Real.sin (E / 2) ^ 2 + Real.cos (E / 2) ^ 2 = 1 := Real.sin_sq_add_cos_sq _
  rw [mul_pow, mul_pow, h1, h2, hcos]
  linear_combination (1 + e) * hpy

lemma anomaly_vec_normSq_pos (E e : ℝ) (he0 : 0 ≤ e) (he1 : e < 1) :
    0 < (Real.sqrt (1 - e) * Real.cos (E / 2)) ^ 2 +
      (Real.sqrt (1 + e) * Real.sin (E / 2)) ^ 2 := by
  rw [anomaly_vec_normSq E e he0 (le_of_lt he1)]
  nlinarith [Real.cos_le_one E, Real.neg_one_le_cos E]

/-- Shifting the eccentric anomaly by a full turn flips the sign of both
half-angle components, which leaves `cos` and `sin` of the true anomaly
unchanged. -/
lemma trueAnomaly_shift (E e : ℝ) (he0 : 0 ≤ e) (he1 : e < 1) :
    Real.cos (trueAnomaly (E + Real.pi * 2) e) = Real.cos (trueAnomaly E e) ∧
      Real.sin (trueAnomaly (E + Real.pi * 2) e) = Real.sin (trueAnomaly E e) := by
  have hhalf : (E + Real.pi * 2) / 2 = E / 2 + Real.pi := by ring
  have hs : Real.sin ((E + Real.pi * 2) / 2) = -Real.sin (E / 2) := by
    rw [hhalf, Real.sin_add_pi]
  have hc : Real.cos ((E + Real.pi * 2) / 2) = -Real.cos (E / 2) := by
    rw [hhalf, Real.cos_add_pi]
  have hxy : (Real.sqrt (1 - e) * Real.cos (E / 2)) ^ 2 +
      (Real.sqrt (1 + e) * Real.sin (E / 2)) ^ 2 ≠ 0 :=
    ne_of_gt (anomaly_vec_normSq_pos E e he0 he1)
  have hxy' : (Real.sqrt (1 - e) * -Real.cos (E / 2)) ^ 2 +
      (Real.sqrt (1 + e) * -Real.sin (E / 2)) ^ 2 ≠ 0 := by
    have : (Real.sqrt (1 - e) * -Real.cos (E / 2)) ^ 2 +
        (Real.sqrt (1 + e) * -Real.sin (E / 2)) ^ 2 =
        (Real.sqrt (1 - e) * Real.cos (E / 2)) ^ 2 +
          (Real.sqrt (1 + e) * Real.sin (E / 2)) ^ 2 := by ring
    rw [this]; exact hxy
  unfold trueAnomaly
  rw [hs, hc]
  constructor
  · rw [cos_two_atan2 _ _ hxy', cos_two_atan2 _ _ hxy]
    ring_nf
  · rw [sin_two_atan2 _ _ hxy', sin_two_atan2 _ _ hxy]
    ring_nf

/-- One full turn of the mean anomaly shifts every Kepler iterate by the same
full turn. -/
lemma eccentricAnomalyIter_shift (M e : ℝ) :
    eccentricAnomalyIter (M + Real.pi * 2) e = eccentricAnomalyIter M e + Real.pi * 2 := by
  unfold eccentricAnomalyIter
  suffices h : ∀ n, (fun E => M + Real.pi * 2 + e * Real.sin E)^[n] (M + Real.pi * 2) =
      (fun E => M + e * Real.sin E)^[n] M + Real.pi * 2 from h 5
  intro n
  induction n with
  | zero => simp
  | succ n ih =>
      rw [Function.iterate_succ_apply', Function.iterate_succ_apply', ih]
      rw [show (fun E => M + e * Real.sin E)^[n] M + Real.pi * 2 =
        (fun E => M + e * Real.sin E)^[n] M + 2 * Real.pi by ring, Real.sin_add_two_pi]
      ring

lemma positionFromTrueAnomaly_congr (a e inc node peri ν₁ ν₂ : ℝ)
    (hc : Real.cos ν₁ = Real.cos ν₂) (hs : Real.sin ν₁ = Real.sin ν₂) :
    positionFromTrueAnomaly a e inc node peri ν₁ =
      positionFromTrueAnomaly a e inc node peri ν₂ := by
  unfold positionFromTrueAnomaly orbitalDistance
  rw [hc, hs]

/-- Advancing the time argument by one orbital period leaves the returned
position unchanged (exactly, in real arithmetic). -/
lemma position_add_period (t a e P inc node peri : ℝ)
    (hP : P ≠ 0) (he0 : 0 ≤ e) (he1 : e < 1) :
    calculateOrbitalPosition (t + P) a e P inc node peri =
      calculateOrbitalPosition t a e P inc node peri := by
  unfold calculateOrbitalPosition trueAnomalyAt
  have hM : meanAnomaly (t + P) P = meanAnomaly t P + Real.pi * 2 := by
    unfold meanAnomaly; field_simp; ring
  rw [hM, eccentricAnomalyIter_shift]
  exact positionFromTrueAnomaly_congr a e inc node peri _ _
    (trueAnomaly_shift _ e he0 he1).1 (trueAnomaly_shift _ e he0 he1).2

/-- C4: for every time `t` and valid orbital elements (`a > 0`,
`e ∈ [0,1)`, `P > 0`), the position computed at `t + P` equals the position
computed at `t`, exactly, with all other arguments unchanged. -/
theorem C4_position_periodic (t a e P inc node peri : ℝ)
    (ha : 0 < a) (he0 : 0 ≤ e) (he1 : e < 1) (hP : 0 < P) :
    calculateOrbitalPosition (t + P) a e P inc node peri =
      calculateOrbitalPosition t a e P inc node peri :=
  position_add_period t a e P inc node peri (ne_of_gt hP) he0 he1

/-- C4 witness: periodicity at the concrete in-range input
`t = 1, a = 2, e = 1/2, P = 3, i = 10, Ω = 20, ω = 30`. -/
theorem C4_position_periodic_witness :
    (0:ℝ) < 2 ∧ (0:ℝ) ≤ 1/2 ∧ (1:ℝ)/2 < 1 ∧ (0:ℝ) < 3 ∧
      calculateOrbitalPosition (1 + 3) 2 (1/2) 3 10 20 30 =
        calculateOrbitalPosition 1 2 (1/2) 3 10 20 30 :=
  ⟨by norm_num, by norm_num, by norm_num, by norm_num,
    C4_position_periodic 1 2 (1/2) 3 10 20 30
      (by norm_num) (by norm_num) (by norm_num) (by norm_num)⟩

lemma rotZ_normSq (θ : ℝ) (v : ℝ × ℝ × ℝ) : normSq3 (rotZ θ v) = normSq3 v := by
  unfold normSq3 rotZ
  linear_combination (v.1 ^ 2 + v.2.1 ^ 2) * Real.sin_sq_add_cos_sq θ

lemma rotX_normSq (θ : ℝ) (v : ℝ × ℝ × ℝ) : normSq3 (rotX θ v) = normSq3 v := by
  unfold normSq3 rotX
  linear_combination (v.2.1 ^ 2 + v.2.2 ^ 2) * Real.sin_sq_add_cos_sq θ

lemma orientationTransform_normSq (inc node peri x_o y_o : ℝ) :
    normSq3 (orientationTransform inc node peri x_o y_o) = x_o ^ 2 + y_o ^ 2 := by
  rw [← rotation_composition_eq, rotZ_normSq, rotX_normSq, rotZ_normSq]
  unfold normSq3
  ring

lemma position_normSq (t a e P inc node peri : ℝ) :
    normSq3 (calculateOrbitalPosition t a e P inc node peri) =
      orbitalDistance a e (trueAnomalyAt t e P) ^ 2 := by
  unfold calculateOrbitalPosition positionFromTrueAnomaly
  rw [orientationTransform_normSq]
  linear_combination (orbitalDistance a e (trueAnomalyAt t e P)) ^ 2 *
    Real.sin_sq_add_cos_sq (trueAnomalyAt t e P)

lemma orbitalDistance_pos (a e ν : ℝ) (ha : 0 < a) (he0 : 0 ≤ e) (he1 : e < 1) :
    0 < orbitalDistance a e ν := by
  unfold orbitalDistance
  apply div_pos
  · have h1 : 0 < 1 - e * e := by nlinarith
    exact mul_pos ha h1
  · nlinarith [Real.cos_le_one ν, Real.neg_one_le_cos ν]

lemma position_norm_eq_distance (t a e P inc node peri : ℝ)
    (ha : 0 < a) (he0 : 0 ≤ e) (he1 : e < 1) :
    norm3 (calculateOrbitalPosition t a e P inc node peri) =
      orbitalDistance a e (trueAnomalyAt t e P) := by
  unfold norm3
  rw [position_normSq]
  exact Real.sqrt_sq (le_of_lt (orbitalDistance_pos a e _ ha he0 he1))

/-- C5: for zero eccentricity, every time, `a > 0`, `P > 0` and arbitrary
orientation angles, the Euclidean norm of the returned position equals the
semi-major axis: the orbit is a circle of radius `a` and the rotation
preserves the norm. -/
theorem C5_zero_eccentricity_circle (t a P inc node peri : ℝ)
    (ha : 0 < a) (hP : 0 < P) :
    norm3 (calculateOrbitalPosition t a 0 P inc node peri) = a := by
  rw [position_norm_eq_distance t a 0 P inc node peri ha le_rfl one_pos]
  unfold orbitalDistance
  norm_num

/-- C5 witness: the norm at `t = 7, a = 3, P = 5, i = 15, Ω = 25, ω = 35`
equals `3`. -/
theorem C5_zero_eccentricity_circle_witness :
    (0:ℝ) < 3 ∧ (0:ℝ) < 5 ∧
      norm3 (calculateOrbitalPosition 7 3 0 5 15 25 35) = 3 :=
  ⟨by norm_num, by norm_num,
    C5_zero_eccentricity_circle 7 3 5 15 25 35 (by norm_num) (by norm_num)⟩

/-- C9: for every time and valid elements (`a > 0`, `e ∈ [0,1)`, `P > 0`),
the Euclidean norm of the returned position equals the in-plane radius
`a(1-e²)/(1+e·cos ν)` at the true anomaly ν of that time, and the norm is
therefore independent of the three orientation angles. -/
theorem C9_norm_eq_radius_angle_independent (t a e P inc node peri : ℝ)
    (ha : 0 < a) (he0 : 0 ≤ e) (he1 : e < 1) (hP : 0 < P) :
    norm3 (calculateOrbitalPosition t a e P inc node peri) =
      orbitalDistance a e (trueAnomalyAt t e P) ∧
    ∀ inc2 node2 peri2 : ℝ,
      norm3 (calculateOrbitalPosition t a e P inc node peri) =
        norm3 (calculateOrbitalPosition t a e P inc2 node2 peri2) :=
  ⟨position_norm_eq_distance t a e P inc node peri ha he0 he1,
   fun inc2 node2 peri2 => by
    rw [position_norm_eq_distance t a e P inc node peri ha he0 he1,
      position_norm_eq_distance t a e P inc2 node2 peri2 ha he0 he1]⟩

/-- C9 witness: the claim instantiated at
`t = 2, a = 4, e = 1/3, P = 6, i = 11, Ω = 22, ω = 33`. -/
theorem C9_norm_eq_radius_angle_independent_witness :
    (0:ℝ) < 4 ∧ (0:ℝ) ≤ 1/3 ∧ (1:ℝ)/3 < 1 ∧ (0:ℝ) < 6 ∧
      (norm3 (calculateOrbitalPosition 2 4 (1/3) 6 11 22 33) =
        orbitalDistance 4 (1/3) (trueAnomalyAt 2 (1/3) 6) ∧
      ∀ inc2 node2 peri2 : ℝ,
        norm3 (calculateOrbitalPosition 2 4 (1/3) 6 11 22 33) =
          norm3 (calculateOrbitalPosition 2 4 (1/3) 6 inc2 node2 peri2)) :=
  ⟨by norm_num, by norm_num, by norm_num, by norm_num,
    C9_norm_eq_radius_angle_independent 2 4 (1/3) 6 11 22 33
      (by norm_num) (by norm_num) (by norm_num) (by norm_num)⟩

/-! True anomaly at zero eccentricity reduces to the mean anomaly inside one
period, giving strict monotonicity in time. -/

lemma atan2_sin_cos (θ : ℝ) (h1 : -Real.pi < θ) (h2 : θ ≤ Real.pi) :
    atan2 (Real.sin θ) (Real.cos θ) = θ := by
  unfold atan2
  rw [show ((Real.cos θ : ℂ) + (Real.sin θ : ℂ) * Complex.I) =
      Complex.cos θ + Complex.sin θ * Complex.I by
    rw [Complex.ofReal_cos, Complex.ofReal_sin]]
  exact Complex.arg_cos_add_sin_mul_I ⟨h1, h2⟩

lemma eccentricAnomalyIter_zero_ecc (M : ℝ) : eccentricAnomalyIter M 0 = M := by
  unfold eccentricAnomalyIter
  apply Function.iterate_fixed
  simp

lemma trueAnomalyAt_zero_ecc (t P : ℝ) (hP : 0 < P) (ht0 : 0 ≤ t) (htP : t < P) :
    trueAnomalyAt t 0 P = meanAnomaly t P := by
  unfold trueAnomalyAt
  rw [eccentricAnomalyIter_zero_ecc]
  unfold trueAnomaly
  norm_num
  have hM2 : meanAnomaly t P / 2 = t / P * Real.pi := by unfold meanAnomaly; ring
  have hlow : -Real.pi < meanAnomaly t P / 2 := by
    rw [hM2]
    have h0 : 0 ≤ t / P * Real.pi := mul_nonneg (div_nonneg ht0 hP.le) Real.pi_pos.le
    linarith [Real.pi_pos]
  have hhigh : meanAnomaly t P / 2 ≤ Real.pi := by
    rw [hM2]
    have := mul_lt_mul_of_pos_right ((div_lt_one hP).mpr htP) Real.pi_pos
    linarith
  rw [atan2_sin_cos (meanAnomaly t P / 2) hlow hhigh]
  ring

/-- C8: at eccentricity `0` (the particular small eccentricity named by the
claim) and fixed period `P > 0`, the true anomaly computed inside
`calculateOrbitalPosition` is strictly increasing on `[0, P)`:
`0 ≤ t1 < t2 < P` implies `ν(t1) < ν(t2)`. -/
theorem C8_trueAnomaly_strict_mono (t1 t2 P : ℝ) (hP : 0 < P)
    (h0 : 0 ≤ t1) (h12 : t1 < t2) (h2P : t2 < P) :
    trueAnomalyAt t1 0 P < trueAnomalyAt t2 0 P := by
  rw [trueAnomalyAt_zero_ecc t1 P hP h0 (lt_trans h12 h2P),
      trueAnomalyAt_zero_ecc t2 P hP (le_trans h0 h12.le) h2P]
  unfold meanAnomaly
  gcongr

/-- C8 witness: strictly increasing true anomaly between `t1 = 1` and
`t2 = 2` for `P = 9`. -/
theorem C8_trueAnomaly_strict_mono_witness :
    (0:ℝ) < 9 ∧ (0:ℝ) ≤ 1 ∧ (1:ℝ) < 2 ∧ (2:ℝ) < 9 ∧
      trueAnomalyAt 1 0 9 < trueAnomalyAt 2 0 9 :=
  ⟨by norm_num, by norm_num, by norm_num, by norm_num,
    C8_trueAnomaly_strict_mono 1 2 9 (by norm_num) (by norm_num) (by norm_num) (by norm_num)⟩

/-- C6: for every set of orbital elements with `e ∈ [0,1)`, the orbit-ring
polyline's first sampled point (phase 0) equals its last sampled point
(phase 1), so the ring is a closed loop; the samples are a function of the
orbital elements alone (`ringPoints` takes neither clock time nor speed). -/
theorem C6_ring_closed_loop (a e inc node peri : ℝ) (he0 : 0 ≤ e) (he1 : e < 1) :
    (ringPoints a e inc node peri).head? = (ringPoints a e inc node peri).getLast? := by
  have hh : (ringPoints a e inc node peri).head? =
      some (calculateOrbitalPosition (((0 : ℕ) : ℝ) / 64 * Real.pi * 2 / (Real.pi * 2) * 10)
        a e 10 inc node peri) := by
    unfold ringPoints
    rw [show (65 : ℕ) = 64 + 1 from rfl, List.range_succ_eq_map]
    simp only [List.map_cons, List.head?_cons]
  have hl : (ringPoints a e inc node peri).getLast? =
      some (calculateOrbitalPosition (((64 : ℕ) : ℝ) / 64 * Real.pi * 2 / (Real.pi * 2) * 10)
        a e 10 inc node peri) := by
    unfold ringPoints
    rw [show (65 : ℕ) = 64 + 1 from rfl, List.range_succ, List.map_append]
    simp only [List.map_cons, List.map_nil]
    rw [List.getLast?_concat]
  have h0 : (((0 : ℕ) : ℝ) / 64 * Real.pi * 2 / (Real.pi * 2) * 10) = 0 := by norm_num
  have h64 : (((64 : ℕ) : ℝ) / 64 * Real.pi * 2 / (Real.pi * 2) * 10) = 0 + 10 := by
    have hpi : Real.pi ≠ 0 := Real.pi_ne_zero
    field_simp
  rw [hh, hl, h0, h64,
    position_add_period 0 a e 10 inc node peri (by norm_num) he0 he1]

/-- C6 witness: the closed loop for the concrete elements
`a = 5, e = 1/4, i = 10, Ω = 20, ω = 30`. -/
theorem C6_ring_closed_loop_witness :
    (0:ℝ) ≤ 1/4 ∧ (1:ℝ)/4 < 1 ∧
      (ringPoints 5 (1/4) 10 20 30).head? = (ringPoints 5 (1/4) 10 20 30).getLast? :=
  ⟨by norm_num, by norm_num,
    C6_ring_closed_loop 5 (1/4) 10 20 30 (by norm_num) (by norm_num)⟩

/-- C7: the clock is a monotonically increasing scalar.  A tick with the
paused flag clear adds `delta * speed` to the time, a tick while paused
leaves it unchanged, and across every sequence of tick and reset operations
with `delta ≥ 0` and `speed > 0` the time never decreases from one step to
the next except when the operation is an explicit reset to 0. -/
theorem C7_clock_monotone (ops : List TimeOp) (t0 : ℝ)
    (hv : ∀ op ∈ ops, validTimeOp op) :
    (∀ d s t : ℝ, timeStep (TimeOp.tick d s false) t = t + d * s) ∧
    (∀ d s t : ℝ, timeStep (TimeOp.tick d s true) t = t) ∧
    (∀ n, (hn : n < ops.length) →
      runOps (ops.take n) t0 ≤ runOps (ops.take (n + 1)) t0 ∨
        (ops.get ⟨n, hn⟩ = TimeOp.reset ∧ runOps (ops.take (n + 1)) t0 = 0)) := by
  refine ⟨fun d s t => by simp [timeStep], fun d s t => by simp [timeStep], ?_⟩
  intro n hn
  have htake : ops.take (n + 1) = ops.take n ++ [ops.get ⟨n, hn⟩] := by
    rw [List.take_succ, List.getElem?_eq_getElem hn]
    rfl
  rw [htake]
  unfold runOps
  rw [List.foldl_append]
  simp only [List.foldl_cons, List.foldl_nil]
  have hop := hv (ops.get ⟨n, hn⟩) (ops.get_mem n hn)
  cases hget : ops.get ⟨n, hn⟩ with
  | tick d s p =>
      rw [hget] at hop
      obtain ⟨hd, hs⟩ := hop
      left
      cases p with
      | false =>
          simp only [timeStep, Bool.false_eq_true, if_false]
          nlinarith [mul_nonneg hd hs.le]
      | true => simp [timeStep]
  | reset => exact Or.inr ⟨rfl, rfl⟩

/-- C7 witness: the theorem instantiated on the concrete operation sequence
`[tick 1 2 false]` from the initial time `5`. -/
theorem C7_clock_monotone_witness :
    (∀ op ∈ [TimeOp.tick 1 2 false], validTimeOp op) ∧
    (∀ n, (hn : n < [TimeOp.tick 1 2 false].length) →
      runOps ([TimeOp.tick 1 2 false].take n) 5 ≤
          runOps ([TimeOp.tick 1 2 false].take (n + 1)) 5 ∨
        ([TimeOp.tick 1 2 false].get ⟨n, hn⟩ = TimeOp.reset ∧
          runOps ([TimeOp.tick 1 2 false].take (n + 1)) 5 = 0)) := by
  have hv : ∀ op ∈ [TimeOp.tick 1 2 false], validTimeOp op := by
    intro op hop
    simp only [List.mem_singleton] at hop
    subst hop
    exact ⟨by norm_num, by norm_num⟩
  exact ⟨hv, (C7_clock_monotone [TimeOp.tick 1 2 false] 5 hv).2.2⟩

lemma trailTimeAt_eq (time P : ℝ) (i : ℕ) :
    trailTimeAt time P i = time - (i : ℝ) * P / 360 := by
  unfold trailTimeAt
  have hpi : Real.pi ≠ 0 := Real.pi_ne_zero
  field_simp
  ring

lemma trailTimeAt_neg_iff (time P : ℝ) (i : ℕ) :
    trailTimeAt time P i < 0 ↔ time < (i : ℝ) * P / 360 := by
  rw [trailTimeAt_eq]
  constructor <;> intro h <;> linarith

lemma trailOpacity_eq (i : ℕ) (hi : i < 60) : trailOpacity i = 1 - (i : ℝ) / 60 := by
  unfold trailOpacity
  have hle : (i : ℝ) ≤ 59 := by exact_mod_cast Nat.lt_succ_iff.mp hi
  rw [max_eq_right]
  linarith

lemma trailOpacity_ge (i : ℕ) (hi : i < 60) : 1 / 60 ≤ trailOpacity i := by
  rw [trailOpacity_eq i hi]
  have hle : (i : ℝ) ≤ 59 := by exact_mod_cast Nat.lt_succ_iff.mp hi
  linarith

/-- When the whole 59-step look-back is admissible, no candidate is skipped. -/
lemma trailSegmentsRaw_full (time a e P inc node peri : ℝ)
    (hP : 0 < P) (h : 59 * P / 360 ≤ time) :
    trailSegmentsRaw time a e P inc node peri =
      (List.range 60).map (fun i : ℕ =>
        (calculateOrbitalPosition (trailTimeAt time P i) a e P inc node peri,
          trailOpacity i)) := by
  unfold trailSegmentsRaw
  have hcong : ∀ i ∈ List.range 60,
      (if trailTimeAt time P i < 0 then none
       else some (calculateOrbitalPosition (trailTimeAt time P i) a e P inc node peri,
         trailOpacity i)) =
      (some ∘ fun i : ℕ =>
        (calculateOrbitalPosition (trailTimeAt time P i) a e P inc node peri,
          trailOpacity i)) i := by
    intro i hi
    rw [List.mem_range] at hi
    have hle : (i : ℝ) ≤ 59 := by exact_mod_cast Nat.lt_succ_iff.mp hi
    have hstep : (i : ℝ) * P / 360 ≤ 59 * P / 360 := by gcongr
    rw [if_neg]
    · rfl
    · rw [trailTimeAt_neg_iff]
      push_neg
      linarith
  rw [List.filterMap_congr hcong, List.filterMap_eq_map]

lemma trailSegmentsRaw_head (time a e P inc node peri : ℝ) (ht : 0 ≤ time) :
    ((trailSegmentsRaw time a e P inc node peri).head?).map Prod.snd = some 1 := by
  unfold trailSegmentsRaw
  have h0 : trailTimeAt time P 0 = time := by rw [trailTimeAt_eq]; norm_num
  have hnot : ¬ trailTimeAt time P 0 < 0 := by rw [h0]; linarith
  rw [show (60 : ℕ) = 59 + 1 from rfl, List.range_succ_eq_map]
  rw [List.filterMap_cons_some (by rw [if_neg hnot])]
  simp only [List.head?_cons, Option.map_some']
  unfold trailOpacity
  norm_num

lemma trailSegmentsRaw_pairwise (time a e P inc node peri : ℝ) :
    (trailSegmentsRaw time a e P inc node peri).Pairwise (fun x y => y.2 ≤ x.2) := by
  unfold trailSegmentsRaw
  apply List.Pairwise.filterMap _ _ (List.pairwise_lt_range 60)
  intro i j hij b hb b' hb'
  by_cases hci : trailTimeAt time P i < 0
  · simp [hci] at hb
  by_cases hcj : trailTimeAt time P j < 0
  · simp [hcj] at hb'
  simp only [if_neg hci, Option.mem_def, Option.some.injEq] at hb
  simp only [if_neg hcj, Option.mem_def, Option.some.injEq] at hb'
  rw [← hb, ← hb']
  unfold trailOpacity
  have hmono : (i : ℝ) ≤ (j : ℝ) := by exact_mod_cast hij.le
  have : 1 - (j : ℝ) / 60 ≤ 1 - (i : ℝ) / 60 := by linarith
  exact max_le_max le_rfl this

lemma trailSegmentsRaw_opacity_lb (time a e P inc node peri : ℝ) :
    ∀ pr ∈ trailSegmentsRaw time a e P inc node peri, 1 / 60 ≤ pr.2 := by
  intro pr hpr
  unfold trailSegmentsRaw at hpr
  rw [List.mem_filterMap] at hpr
  obtain ⟨i, hi, hf⟩ := hpr
  rw [List.mem_range] at hi
  by_cases hc : trailTimeAt time P i < 0
  · rw [if_pos hc] at hf; cases hf
  · rw [if_neg hc] at hf
    rw [← Option.some.inj hf]
    exact trailOpacity_ge i hi

lemma trailSegmentsRaw_full_getLast (time a e P inc node peri : ℝ)
    (hP : 0 < P) (h : 59 * P / 360 ≤ time) :
    ((trailSegmentsRaw time a e P inc node peri).getLast?).map Prod.snd =
      some (1 / 60) := by
  rw [trailSegmentsRaw_full time a e P inc node peri hP h]
  rw [show (60 : ℕ) = 59 + 1 from rfl, List.range_succ, List.map_append]
  simp only [List.map_cons, List.map_nil]
  rw [List.getLast?_concat]
  simp only [Option.map_some']
  unfold trailOpacity
  norm_num

lemma trailSegmentsRaw_length_lt (time a e P inc node peri : ℝ)
    (hP : 0 < P) (h : time < 59 * P / 360) :
    (trailSegmentsRaw time a e P inc node peri).length < 60 := by
  unfold trailSegmentsRaw
  rw [show (60 : ℕ) = 59 + 1 from rfl, List.range_succ, List.filterMap_append]
  have h59 : trailTimeAt time P 59 < 0 := by
    rw [trailTimeAt_neg_iff]
    push_cast
    linarith
  rw [List.length_append]
  have hlast : (List.filterMap (fun i : ℕ =>
      if trailTimeAt time P i < 0 then none
      else some (calculateOrbitalPosition (trailTimeAt time P i) a e P inc node peri,
        trailOpacity i)) [59]).length = 0 := by
    rw [List.filterMap_cons_none (by rw [if_pos h59])]
    rfl
  rw [hlast]
  have hle := List.length_filterMap_le (fun i : ℕ =>
    if trailTimeAt time P i < 0 then none
    else some (calculateOrbitalPosition (trailTimeAt time P i) a e P inc node peri,
      trailOpacity i)) (List.range 59)
  rw [List.length_range] at hle
  omega

lemma trailSegmentsRaw_zero_time (a e P inc node peri : ℝ) (hP : 0 < P) :
    trailSegmentsRaw 0 a e P inc node peri =
      [(calculateOrbitalPosition (trailTimeAt 0 P 0) a e P inc node peri,
        trailOpacity 0)] := by
  unfold trailSegmentsRaw
  have hnot : ¬ trailTimeAt 0 P 0 < 0 := by
    rw [trailTimeAt_eq]; norm_num
  rw [show (60 : ℕ) = 59 + 1 from rfl, List.range_succ_eq_map]
  rw [List.filterMap_cons_some (by rw [if_neg hnot])]
  have hnil : List.filterMap (fun i : ℕ =>
      if trailTimeAt 0 P i < 0 then none
      else some (calculateOrbitalPosition (trailTimeAt 0 P i) a e P inc node peri,
        trailOpacity i)) (List.map Nat.succ (List.range 59)) = [] := by
    rw [List.filterMap_eq_nil_iff]
    intro i hi
    rw [List.mem_map] at hi
    obtain ⟨j, _, rfl⟩ := hi
    rw [if_pos]
    rw [trailTimeAt_neg_iff]
    have h1 : (1 : ℝ) ≤ (Nat.succ j : ℝ) := by exact_mod_cast Nat.one_le_iff_ne_zero.mpr (Nat.succ_ne_zero j)
    have : 0 < (Nat.succ j : ℝ) * P / 360 := by positivity
    linarith
  rw [hnil]

lemma trailSegmentsRaw_truncated_opacity (time a e P inc node peri : ℝ)
    (hP : 0 < P) (h : time < 59 * P / 360) :
    ∀ pr ∈ trailSegmentsRaw time a e P inc node peri, 1 / 60 < pr.2 := by
  intro pr hpr
  unfold trailSegmentsRaw at hpr
  rw [List.mem_filterMap] at hpr
  obtain ⟨i, hi, hf⟩ := hpr
  rw [List.mem_range] at hi
  by_cases hc : trailTimeAt time P i < 0
  · rw [if_pos hc] at hf; cases hf
  · rw [if_neg hc] at hf
    rw [trailTimeAt_neg_iff] at hc
    push_neg at hc
    have hi59 : (i : ℝ) < 59 := by
      by_contra hge
      push_neg at hge
      have : 59 * P / 360 ≤ (i : ℝ) * P / 360 := by gcongr
      linarith
    have hi58 : (i : ℝ) ≤ 58 := by
      have hnat : i < 59 := by exact_mod_cast hi59
      exact_mod_cast Nat.lt_succ_iff.mp hnat
    rw [← Option.some.inj hf]
    rw [trailOpacity_eq i hi]
    linarith

/-- C3 counterexample: at `time = 59`, `P = 360` (all 60 segments
generated), the oldest generated segment of the trail carries opacity
`1/60`, not `0.0` as the claim states. -/
theorem C3_trail_oldest_opacity_counterexample :
    ((trailSegmentsRaw 59 1 0 360 0 0 0).getLast?).map Prod.snd = some (1 / 60) ∧
      ((trailSegmentsRaw 59 1 0 360 0 0 0).getLast?).map Prod.snd ≠ some 0 := by
  have h := trailSegmentsRaw_full_getLast 59 1 0 360 0 0 0 (by norm_num) (by norm_num)
  refine ⟨h, ?_⟩
  rw [h]
  simp only [ne_eq, Option.some.injEq]
  norm_num

/-- C3 amended: in generation order (newest first, before the final
reverse) the opacities are monotonically non-increasing and the newest
segment's opacity is `1.0`; however every opacity is at least `1/60`, and
for a full 60-segment trail the oldest segment's opacity equals `1/60`
(the linear fade reaches `0.0` only at the excluded index 60), not `0.0`. -/
theorem C3_trail_opacity_profile (time a e P inc node peri : ℝ)
    (ht : 0 ≤ time) (hP : 0 < P) :
    ((trailSegmentsRaw time a e P inc node peri).head?).map Prod.snd = some 1 ∧
    (trailSegmentsRaw time a e P inc node peri).Pairwise (fun x y => y.2 ≤ x.2) ∧
    (∀ pr ∈ trailSegmentsRaw time a e P inc node peri, 1 / 60 ≤ pr.2) ∧
    (59 * P / 360 ≤ time →
      ((trailSegmentsRaw time a e P inc node peri).getLast?).map Prod.snd =
        some (1 / 60)) :=
  ⟨trailSegmentsRaw_head time a e P inc node peri ht,
   trailSegmentsRaw_pairwise time a e P inc node peri,
   trailSegmentsRaw_opacity_lb time a e P inc node peri,
   fun h => trailSegmentsRaw_full_getLast time a e P inc node peri hP h⟩

/-- C3 witness: the amended opacity profile at `time = 59`, `P = 360`,
`a = 1`, `e = 0`, angles `0`. -/
theorem C3_trail_opacity_profile_witness :
    (0:ℝ) ≤ 59 ∧ (0:ℝ) < 360 ∧
      (((trailSegmentsRaw 59 1 0 360 0 0 0).head?).map Prod.snd = some 1 ∧
      (trailSegmentsRaw 59 1 0 360 0 0 0).Pairwise (fun x y => y.2 ≤ x.2) ∧
      (∀ pr ∈ trailSegmentsRaw 59 1 0 360 0 0 0, 1 / 60 ≤ pr.2) ∧
      (59 * 360 / 360 ≤ (59:ℝ) →
        ((trailSegmentsRaw 59 1 0 360 0 0 0).getLast?).map Prod.snd =
          some (1 / 60))) :=
  ⟨by norm_num, by norm_num,
    C3_trail_opacity_profile 59 1 0 360 0 0 0 (by norm_num) (by norm_num)⟩

/-- C10 counterexample: the claim reads "for `t` smaller than the full
60-degree look-back window the trail contains fewer than 60 points"; at
`P = 360` the 60-degree window is `P/6 = 60` time units, yet at `t = 59 < 60`
all 60 segments are generated (the deepest candidate only looks back
`59·P/360 = 59` units). -/
theorem C10_trail_window_counterexample :
    (59 : ℝ) < 360 / 6 ∧ (trailSegmentsRaw 59 1 0 360 0 0 0).length = 60 := by
  refine ⟨by norm_num, ?_⟩
  rw [trailSegmentsRaw_full 59 1 0 360 0 0 0 (by norm_num) (by norm_num)]
  rw [List.length_map, List.length_range]

/-- C10 amended: every accepted sample time lies in `[0, time]` (negative
candidates are skipped); for `time` below the deepest look-back actually
sampled, `59·P/360`, fewer than 60 segments are generated; at `time = 0`
exactly one segment is generated, hence the render guard (at least two
segments) fails and nothing is rendered; and in every such truncated trail
each rendered opacity is strictly greater than the full-trail minimum
`1/60`. -/
theorem C10_trail_lookback_truncation (time a e P inc node peri : ℝ)
    (ht : 0 ≤ time) (hP : 0 < P) :
    (∀ i : ℕ, i < 60 → ¬ trailTimeAt time P i < 0 →
      0 ≤ trailTimeAt time P i ∧ trailTimeAt time P i ≤ time) ∧
    (time < 59 * P / 360 →
      (trailSegmentsRaw time a e P inc node peri).length < 60) ∧
    (trailSegmentsRaw 0 a e P inc node peri).length = 1 ∧
    ¬ trailRendered true (trailSegments 0 a e P inc node peri) ∧
    (time < 59 * P / 360 →
      ∀ pr ∈ trailSegmentsRaw time a e P inc node peri, 1 / 60 < pr.2) := by
  refine ⟨?_, fun h => trailSegmentsRaw_length_lt time a e P inc node peri hP h,
    ?_, ?_, fun h => trailSegmentsRaw_truncated_opacity time a e P inc node peri hP h⟩
  · intro i hi hnot
    push_neg at hnot
    refine ⟨hnot, ?_⟩
    rw [trailTimeAt_eq]
    have : 0 ≤ (i : ℝ) * P / 360 := by positivity
    linarith
  · rw [trailSegmentsRaw_zero_time a e P inc node peri hP]
    rfl
  · unfold trailRendered trailSegments
    rw [List.length_reverse, trailSegmentsRaw_zero_time a e P inc node peri hP]
    intro hcon
    exact absurd hcon.2 (by norm_num)

/-- C10 witness: the amended statement at
`time = 1, a = 1, e = 0, P = 360`, angles `0`. -/
theorem C10_trail_lookback_truncation_witness :
    (0:ℝ) ≤ 1 ∧ (0:ℝ) < 360 ∧
      ((∀ i : ℕ, i < 60 → ¬ trailTimeAt 1 360 i < 0 →
        0 ≤ trailTimeAt 1 360 i ∧ trailTimeAt 1 360 i ≤ 1) ∧
      ((1:ℝ) < 59 * 360 / 360 →
        (trailSegmentsRaw 1 1 0 360 0 0 0).length < 60) ∧
      (trailSegmentsRaw 0 1 0 360 0 0 0).length = 1 ∧
      ¬ trailRendered true (trailSegments 0 1 0 360 0 0 0) ∧
      ((1:ℝ) < 59 * 360 / 360 →
        ∀ pr ∈ trailSegmentsRaw 1 1 0 360 0 0 0, 1 / 60 < pr.2)) :=
  ⟨by norm_num, by norm_num,
    C10_trail_lookback_truncation 1 1 0 360 0 0 0 (by norm_num) (by norm_num)⟩

lemma jsAdd_some (a b : ℝ) : jsAdd (some a) (some b) = some (a + b) := rfl

lemma jsSub_some (a b : ℝ) : jsSub (some a) (some b) = some (a - b) := rfl

lemma jsMul_some (a b : ℝ) : jsMul (some a) (some b) = some (a * b) := rfl

lemma jsDiv_some (a b : ℝ) (h : b ≠ 0) : jsDiv (some a) (some b) = some (a / b) := by
  simp [jsDiv, h]

lemma jsDiv_some_zero (a : ℝ) : jsDiv (some a) (some 0) = none := by
  simp [jsDiv]

lemma jsSqrt_some (a : ℝ) (h : 0 ≤ a) : jsSqrt (some a) = some (Real.sqrt a) := by
  simp [jsSqrt, not_lt.mpr h]

lemma jsAdd_none_right (x : JSVal) : jsAdd x none = none := by cases x <;> rfl

lemma jsMul_none_right (x : JSVal) : jsMul x none = none := by cases x <;> rfl

lemma jsDiv_none_right (x : JSVal) : jsDiv x none = none := by cases x <;> rfl

lemma meanAnomalyJS_some (time P : ℝ) (hP : P ≠ 0) :
    meanAnomalyJS time P = some (meanAnomaly time P) := by
  unfold meanAnomalyJS meanAnomaly
  rw [jsDiv_some _ _ hP]
  rfl

lemma meanAnomalyJS_zero (time : ℝ) : meanAnomalyJS time 0 = none := by
  unfold meanAnomalyJS
  rw [jsDiv_some_zero]
  rfl

lemma eccentricAnomalyIterJS_some (M e : ℝ) :
    eccentricAnomalyIterJS (some M) e = some (eccentricAnomalyIter M e) := by
  unfold eccentricAnomalyIterJS eccentricAnomalyIter
  suffices h : ∀ n : ℕ, (fun x => jsAdd (some M) (jsMul (some e) (jsSin x)))^[n] (some M) =
      some ((fun E => M + e * Real.sin E)^[n] M) from h 5
  intro n
  induction n with
  | zero => rfl
  | succ n ih =>
      rw [Function.iterate_succ_apply', Function.iterate_succ_apply', ih]
      rfl

lemma eccentricAnomalyIterJS_none (e : ℝ) : eccentricAnomalyIterJS none e = none := by
  unfold eccentricAnomalyIterJS
  apply Function.iterate_fixed
  rfl

lemma trueAnomalyJS_some (E e : ℝ) (he0 : 0 ≤ e) (he1 : e ≤ 1) :
    trueAnomalyJS (some E) e = some (trueAnomaly E e) := by
  unfold trueAnomalyJS trueAnomaly
  rw [jsDiv_some E 2 two_ne_zero, jsAdd_some, jsSub_some,
    jsSqrt_some _ (by linarith : (0:ℝ) ≤ 1 + e), jsSqrt_some _ (by linarith : (0:ℝ) ≤ 1 - e)]
  rfl

lemma trueAnomalyJS_none (e : ℝ) : trueAnomalyJS none e = none := by
  unfold trueAnomalyJS
  rw [show jsDiv (none : JSVal) (some 2) = none from rfl,
    show jsSin (none : JSVal) = none from rfl,
    show jsCos (none : JSVal) = none from rfl,
    jsMul_none_right, jsMul_none_right]
  rfl

lemma orbitalDistanceJS_some (a e ν : ℝ) (he0 : 0 ≤ e) (he1 : e < 1) :
    orbitalDistanceJS a e (some ν) = some (orbitalDistance a e ν) := by
  have hden : 1 + e * Real.cos ν ≠ 0 := by
    have : 0 < 1 + e * Real.cos ν := by
      nlinarith [Real.cos_le_one ν, Real.neg_one_le_cos ν]
    exact ne_of_gt this
  unfold orbitalDistanceJS orbitalDistance
  simp only [show jsCos (some ν) = some (Real.cos ν) from rfl, jsMul_some, jsSub_some,
    jsAdd_some]
  rw [jsDiv_some _ _ hden]

lemma orbitalDistanceJS_none (a e : ℝ) : orbitalDistanceJS a e none = none := by
  unfold orbitalDistanceJS
  rw [show jsCos (none : JSVal) = none from rfl, jsMul_none_right, jsAdd_none_right,
    jsDiv_none_right]

lemma degToRadJS_eq (d : ℝ) : degToRadJS d = some (d * Real.pi / 180) := by
  unfold degToRadJS
  rw [jsMul_some, jsDiv_some _ _ (by norm_num : (180:ℝ) ≠ 0)]

/-- For in-range parameters every step stays finite and the JS computation
returns exactly the real-arithmetic triple. -/
lemma calcJS_eq_some (time a e P inc node peri : ℝ)
    (he0 : 0 ≤ e) (he1 : e < 1) (hP : P ≠ 0) :
    calculateOrbitalPositionJS time a e P inc node peri =
      (some (calculateOrbitalPosition time a e P inc node peri).1,
       some (calculateOrbitalPosition time a e P inc node peri).2.1,
       some (calculateOrbitalPosition time a e P inc node peri).2.2) := by
  simp only [calculateOrbitalPositionJS]
  rw [meanAnomalyJS_some time P hP, eccentricAnomalyIterJS_some,
    trueAnomalyJS_some _ _ he0 he1.le, orbitalDistanceJS_some a e _ he0 he1,
    degToRadJS_eq, degToRadJS_eq, degToRadJS_eq]
  rfl

/-- With `orbitalPeriod = 0` the division by zero at the first step makes
every downstream quantity, and all three returned coordinates, non-finite. -/
lemma calcJS_period_zero (time a e inc node peri : ℝ) :
    calculateOrbitalPositionJS time a e 0 inc node peri = (none, none, none) := by
  simp only [calculateOrbitalPositionJS]
  rw [meanAnomalyJS_zero, eccentricAnomalyIterJS_none, trueAnomalyJS_none,
    orbitalDistanceJS_none]
  simp only [show jsCos (none : JSVal) = none from rfl,
    show jsSin (none : JSVal) = none from rfl, jsMul_none_right]
  rfl

/-- C1 counterexample: at `orbitalPeriod = 0` (here `time = 1`, `a = 1`,
`e = 0`, angles `0`) the computation divides by zero and returns a triple in
which every coordinate is non-finite (`none` marks NaN/Infinity); no
invalid-parameter error result is produced anywhere. -/
theorem C1_invalid_period_nan_counterexample :
    calculateOrbitalPositionJS 1 1 0 0 0 0 0 = (none, none, none) :=
  calcJS_period_zero 1 1 0 0 0 0

/-- C1 amended: `calculateOrbitalPosition` performs no parameter validation
and has no error result: for `orbitalPeriod = 0` it propagates the division
by zero and returns non-finite (NaN/Infinity) coordinates instead of an
explicit invalid-parameter error, and for in-range inputs (`0 ≤ e < 1`,
`P ≠ 0`) it returns the finite real-arithmetic `(x, y, z)` triple. -/
theorem C1_no_validation_behaviour :
    (∀ time a e P inc node peri : ℝ, 0 ≤ e → e < 1 → P ≠ 0 →
      calculateOrbitalPositionJS time a e P inc node peri =
        (some (calculateOrbitalPosition time a e P inc node peri).1,
         some (calculateOrbitalPosition time a e P inc node peri).2.1,
         some (calculateOrbitalPosition time a e P inc node peri).2.2)) ∧
    (∀ time a e inc node peri : ℝ,
      calculateOrbitalPositionJS time a e 0 inc node peri = (none, none, none)) :=
  ⟨fun time a e P inc node peri he0 he1 hP =>
      calcJS_eq_some time a e P inc node peri he0 he1 hP,
   fun time a e inc node peri => calcJS_period_zero time a e inc node peri⟩

/-- C1 witness: the in-range finiteness clause applied at
`time = 1, a = 1, e = 0, P = 2`, angles `0`. -/
theorem C1_no_validation_behaviour_witness :
    (0:ℝ) ≤ 0 ∧ (0:ℝ) < 1 ∧ (2:ℝ) ≠ 0 ∧
      calculateOrbitalPositionJS 1 1 0 2 0 0 0 =
        (some (calculateOrbitalPosition 1 1 0 2 0 0 0).1,
         some (calculateOrbitalPosition 1 1 0 2 0 0 0).2.1,
         some (calculateOrbitalPosition 1 1 0 2 0 0 0).2.2) :=
  ⟨le_rfl, by norm_num, by norm_num,
    C1_no_validation_behaviour.1 1 1 0 2 0 0 0 le_rfl (by norm_num) (by norm_num)⟩

end SolarSystem
